import Mathlib

/-!
Verification development for the Path core of a safe-API binding layer over a
native 2D graphics engine (rust-skia, src/skia-safe/src/core/path.rs).

The Rust layer forwards to the native engine through FFI; the native path
implementation is not part of the repository sources.  Wherever a definition
embeds behaviour that lives only behind the FFI boundary, its doc comment
starts with "Modelled from the spec:" and names the missing native function;
such definitions follow the specification text and the doc comments of the
Rust wrappers, which are the only behavioural contracts present in the
sources.  Logic that is visibly present in the Rust wrappers themselves
(buffer-size checks, the get_point index guard, the fill-type XOR) is
translated directly from that Rust code.

Scalars are modelled as rationals extended with the three non-finite IEEE
classes (positive/negative infinity, NaN); the claims under study only ever
inspect finiteness and exact equality with 1, never rounding.
-/

set_option maxRecDepth 4000

namespace RustSkia

/-- Drawing verb stored in a path's verb array (SkPath_Verb without the
iteration sentinel Done, which is never stored). -/
inductive SkVerb where
  | move
  | line
  | quad
  | conic
  | cubic
  | close
deriving DecidableEq, Repr

/-- Scalar model: an f32 is either a finite value (modelled exactly as a
rational) or one of the non-finite classes.  NaN is distinct from every
finite value, matching IEEE comparison for the equality tests the code
performs. -/
inductive SkScalar where
  | fin (q : ℚ)
  | posInf
  | negInf
  | nan
deriving DecidableEq, Repr

/-- Finiteness test on a scalar, as SkScalarIsFinite. -/
def SkScalar.isFinite : SkScalar → Bool
  | .fin _ => true
  | _ => false

/-- A 2D point with exact rational coordinates. -/
structure SkPoint where
  x : ℚ
  y : ℚ
deriving DecidableEq, Repr

/-- The fill rule of a path: one of Winding, EvenOdd, InverseWinding,
InverseEvenOdd. -/
inductive SkPathFillType where
  | winding
  | evenOdd
  | inverseWinding
  | inverseEvenOdd
deriving DecidableEq, Repr

/-- Modelled from the spec: the storage code of each fill type in the native
SkPathFillType enumeration (Winding = 0, EvenOdd = 1, InverseWinding = 2,
InverseEvenOdd = 3); the enumeration itself lives in path_types outside the
sources. -/
def SkPathFillType.code : SkPathFillType → ℕ
  | .winding => 0
  | .evenOdd => 1
  | .inverseWinding => 2
  | .inverseEvenOdd => 3

/-- Partial inverse of SkPathFillType.code, used when decoding serialized or
raw fill-type codes. -/
def SkPathFillType.ofCode : ℕ → Option SkPathFillType
  | 0 => some .winding
  | 1 => some .evenOdd
  | 2 => some .inverseWinding
  | 3 => some .inverseEvenOdd
  | _ => none

/-- Total version of SkPathFillType.ofCode for writes of a raw code into the
fill-type bitfield (set_fFillType); codes outside 0..3 are unsupported by the
native type and collapse to Winding here.  The development only ever writes
codes 0..3. -/
def SkPathFillType.ofCodeTotal (n : ℕ) : SkPathFillType :=
  match SkPathFillType.ofCode n with
  | some ft => ft
  | none => .winding

/-- Modelled from the spec: SkPathFillType::isInverse of path_types; true
exactly for the two inverse fill types. -/
def SkPathFillType.isInverse : SkPathFillType → Bool
  | .inverseWinding => true
  | .inverseEvenOdd => true
  | _ => false

/-- The central path value: fill rule, verb array, point array, conic-weight
array and the volatility hint.  This is the logical content of a native
SkPath; copy-on-write storage sharing is modelled separately (CowStore) and
the generation id separately (GenPath). -/
structure SkPath where
  fillType : SkPathFillType
  verbs : List SkVerb
  points : List SkPoint
  conicWeights : List SkScalar
  isVolatile : Bool
deriving DecidableEq, Repr

/-- The empty path: no verbs, no points, no weights, fill rule Winding. -/
def SkPath.empty : SkPath :=
  { fillType := .winding, verbs := [], points := [], conicWeights := [], isVolatile := false }

/-- Number of points each verb consumes from the point array (Move 1, Line 1,
Quad 2, Conic 2, Cubic 3, Close 0), per the new_from doc comment. -/
def pointsPerVerb : SkVerb → ℕ
  | .move => 1
  | .line => 1
  | .quad => 2
  | .conic => 2
  | .cubic => 3
  | .close => 0

/-- Total number of points a verb sequence demands. -/
def ptsNeeded (vs : List SkVerb) : ℕ :=
  (vs.map pointsPerVerb).sum

/-- Number of conic weights a verb sequence demands: one per Conic verb. -/
def weightsNeeded (vs : List SkVerb) : ℕ :=
  (vs.filter (fun v => v == SkVerb.conic)).length

/-- Contour-grammar automaton: the Boolean state records whether a contour is
currently open (a Move has been seen and no Close yet).  Move may appear
anywhere and opens a contour; Line/Quad/Conic/Cubic require an open contour;
Close requires an open contour and closes it. -/
def legalFrom : Bool → List SkVerb → Bool
  | _, [] => true
  | _, .move :: r => legalFrom true r
  | inContour, .close :: r => inContour && legalFrom false r
  | inContour, .line :: r => inContour && legalFrom inContour r
  | inContour, .quad :: r => inContour && legalFrom inContour r
  | inContour, .conic :: r => inContour && legalFrom inContour r
  | inContour, .cubic :: r => inContour && legalFrom inContour r

/-- A legal verb sequence: any number of contours, each a Move followed by
zero or more segments followed by an optional Close (new_from doc comment,
lines 345-347 of path.rs). -/
def legalVerbSeq (vs : List SkVerb) : Bool :=
  legalFrom false vs

/-- Structural validity of a path value: legal verb sequence, and point and
weight arrays of exactly the lengths the verbs demand. -/
def PathValid (p : SkPath) : Prop :=
  legalVerbSeq p.verbs = true ∧
  p.points.length = ptsNeeded p.verbs ∧
  p.conicWeights.length = weightsNeeded p.verbs

instance (p : SkPath) : Decidable (PathValid p) := by
  unfold PathValid; infer_instance

/-- Last point of the path, or (0,0) when the point array is empty
(the native getLastPt convention). -/
def SkPath.lastPt (p : SkPath) : SkPoint :=
  p.points.getLastD ⟨0, 0⟩

/-- The contour-continuation test of the mutation API: an implicit Move is
required when the path is empty or the most recently appended verb is Close
(line_to doc comment, lines 991-992 of path.rs). -/
def SkPath.needsMove (p : SkPath) : Bool :=
  p.verbs.isEmpty || p.verbs.getLast? == some SkVerb.close

/-- Modelled from the spec: the native injectMoveToIfNeeded behind every
segment-append operation; when the path is empty or ends in Close, appends a
Move verb with point (0,0). -/
def SkPath.injectMoveIfNeeded (p : SkPath) : SkPath :=
  if p.needsMove then
    { p with verbs := p.verbs ++ [SkVerb.move], points := p.points ++ [⟨0, 0⟩] }
  else p

/-- Modelled from the spec: native SkPath::moveTo; appends a Move verb and
its point. -/
def SkPath.move_to (p : SkPath) (q : SkPoint) : SkPath :=
  { p with verbs := p.verbs ++ [SkVerb.move], points := p.points ++ [q] }

/-- Modelled from the spec: native SkPath::lineTo; injects a Move to (0,0) if
needed, then appends a Line verb and its end point. -/
def SkPath.line_to (p : SkPath) (q : SkPoint) : SkPath :=
  let p1 := p.injectMoveIfNeeded
  { p1 with verbs := p1.verbs ++ [SkVerb.line], points := p1.points ++ [q] }

/-- Modelled from the spec: native SkPath::quadTo; injects a Move to (0,0) if
needed, then appends a Quad verb with control and end points. -/
def SkPath.quad_to (p : SkPath) (q1 q2 : SkPoint) : SkPath :=
  let p1 := p.injectMoveIfNeeded
  { p1 with verbs := p1.verbs ++ [SkVerb.quad], points := p1.points ++ [q1, q2] }

/-- Modelled from the spec: native SkPath::cubicTo; injects a Move to (0,0)
if needed, then appends a Cubic verb with its three points. -/
def SkPath.cubic_to (p : SkPath) (q1 q2 q3 : SkPoint) : SkPath :=
  let p1 := p.injectMoveIfNeeded
  { p1 with verbs := p1.verbs ++ [SkVerb.cubic], points := p1.points ++ [q1, q2, q3] }

/-- Modelled from the spec: native SkPath::conicTo with its weight-dependent
verb selection (conic_to doc comment, lines 1086-1099 of path.rs): after the
implicit Move, a non-finite weight appends two Line verbs to the control and
end points; a weight equal to one appends a Quad verb; any other finite
weight appends a Conic verb and records the weight. -/
def SkPath.conic_to (p : SkPath) (q1 q2 : SkPoint) (w : SkScalar) : SkPath :=
  let p1 := p.injectMoveIfNeeded
  if ¬ w.isFinite then
    { p1 with verbs := p1.verbs ++ [SkVerb.line, SkVerb.line], points := p1.points ++ [q1, q2] }
  else if w = SkScalar.fin 1 then
    { p1 with verbs := p1.verbs ++ [SkVerb.quad], points := p1.points ++ [q1, q2] }
  else
    { p1 with
        verbs := p1.verbs ++ [SkVerb.conic]
        points := p1.points ++ [q1, q2]
        conicWeights := p1.conicWeights ++ [w] }

/-- Modelled from the spec: native SkPath::close; appends a Close verb unless
the path is empty or already ends in Close (close doc comment, line 1373 of
path.rs). -/
def SkPath.closeContour (p : SkPath) : SkPath :=
  if p.verbs.isEmpty || p.verbs.getLast? == some SkVerb.close then p
  else { p with verbs := p.verbs ++ [SkVerb.close] }

/-- Sets the fill rule; translated from Path::set_fill_type (path.rs lines
532-535), which only writes the fill-type bitfield. -/
def SkPath.set_fill_type (p : SkPath) (ft : SkPathFillType) : SkPath :=
  { p with fillType := ft }

/-- Sets the volatility hint; translated from Path::set_is_volatile (path.rs
lines 681-684), which only writes the volatility bitfield. -/
def SkPath.set_is_volatile (p : SkPath) (b : Bool) : SkPath :=
  { p with isVolatile := b }

/-- Replaces the fill rule by its inverse; translated from
Path::toggle_inverse_fill_type (path.rs lines 547-551), which XORs the
fill-type code with 2. -/
def SkPath.toggle_inverse_fill_type (p : SkPath) : SkPath :=
  { p with fillType := SkPathFillType.ofCodeTotal (p.fillType.code ^^^ 2) }

/-- Whether the fill rule describes the area outside the geometry; translated
from Path::is_inverse_fill_type (path.rs lines 541-543). -/
def SkPath.is_inverse_fill_type (p : SkPath) : Bool :=
  p.fillType.isInverse

/-- Number of points in the path (Path::count_points). -/
def SkPath.count_points (p : SkPath) : ℕ :=
  p.points.length

/-- Largest value of the C int type the FFI layer converts usize indices and
lengths into. -/
def i32Max : ℕ := 2147483647

/-- The usize-to-C-int conversion try_into().unwrap() the Rust wrappers run
on indices and slice lengths: yields the value when it fits in an i32 and
panics — modelled as None — otherwise. -/
def usizeToCInt (n : ℕ) : Option ℕ :=
  if n ≤ i32Max then some n else none

/-- Modelled from the spec: native SkPath::getPoint behind C_SkPath_getPoint;
returns the stored point at the index, or (0,0) when the index is out of
range (get_point doc comment, line 786 of path.rs). -/
def SkPath.nativeGetPoint (p : SkPath) (i : ℕ) : SkPoint :=
  p.points.getD i ⟨0, 0⟩

/-- Translated from Path::get_point (path.rs lines 792-803): the wrapper
first converts the index with try_into().unwrap() (path.rs line 794), which
panics — modelled as None — above i32::MAX, before any range handling; then
it wraps the native getPoint, returning (Some of) the point unless it is
(0,0) and the index is out of range. -/
def SkPath.get_point (p : SkPath) (i : ℕ) : Option (Option SkPoint) :=
  match usizeToCInt i with
  | none => none
  | some _ =>
    let pt := p.nativeGetPoint i
    some (if pt ≠ ⟨0, 0⟩ ∨ i < p.count_points then some pt else none)

/-- Structural path equality as native SkPath operator== (doc comment at
lines 272-273 of path.rs): fill type, verb array, point array and conic
weights; the volatility hint is not compared. -/
def pathEq (a b : SkPath) : Bool :=
  a.fillType == b.fillType && a.verbs == b.verbs &&
    a.points == b.points && a.conicWeights == b.conicWeights

/-! ### Arc operations

The arc operators are implemented entirely in the native engine.  Their
models below follow the specification text and the doc comments of the Rust
wrappers.  The exact numeric decomposition of an arc into conic segments is
engine-internal (it involves irrational conic weights such as cos 45°) and is
not fixed by the specification; the models emit segment lists with the
documented verb shape, with placeholder rational numerics.  No claim under
study depends on those numeric values — only on the verb structure and on
which point begins the contour. -/

/-- An axis-aligned rectangle with exact rational edges, standing in for the
collaborator Rect type. -/
structure SkRect where
  left : ℚ
  top : ℚ
  right : ℚ
  bottom : ℚ
deriving DecidableEq, Repr

/-- Rational cosine of an angle in degrees, exact at multiples of 90°.  The
development only evaluates arc geometry at quadrant angles, where the value
is exact; at other angles the engine computes an irrational value that has no
rational counterpart, and the model returns 0 there (never relied upon by any
theorem). -/
def cosDegQ (θ : ℚ) : ℚ :=
  let r := θ - 360 * ⌊θ / 360⌋
  if r = 0 then 1
  else if r = 90 then 0
  else if r = 180 then -1
  else if r = 270 then 0
  else 0

/-- Rational sine of an angle in degrees in the engine's y-down orientation
(0° is +x, 90° is +y), exact at multiples of 90°; see cosDegQ for the
treatment of other angles. -/
def sinDegQ (θ : ℚ) : ℚ :=
  let r := θ - 360 * ⌊θ / 360⌋
  if r = 0 then 0
  else if r = 90 then 1
  else if r = 180 then 0
  else if r = 270 then -1
  else 0

/-- The point of the ellipse inscribed in an oval rectangle at a given angle
in degrees: center plus radius-scaled cosine and sine. -/
def ovalPointAtDeg (oval : SkRect) (θ : ℚ) : SkPoint :=
  ⟨(oval.left + oval.right) / 2 + ((oval.right - oval.left) / 2) * cosDegQ θ,
   (oval.top + oval.bottom) / 2 + ((oval.bottom - oval.top) / 2) * sinDegQ θ⟩

/-- Placeholder value for the engine-internal conic weight of a quarter-circle
arc (the true value, cos 45° = √2/2, is irrational); no theorem inspects it. -/
def arcConicWeight : SkScalar :=
  SkScalar.fin (707107 / 1000000)

/-- Modelled from the spec: the conic decomposition of an elliptical arc that
the native engine appends after the arc's first point; the sweep is split
into at most four segments of at most 90° each, each a Conic whose control
and end points are taken on the oval (placeholder numerics, see the section
comment). -/
def arcSegsConics (oval : SkRect) (startDeg sweepDeg : ℚ) : List (SkPoint × SkPoint × SkScalar) :=
  let n : ℕ := min 4 (max 1 (Int.toNat ⌈|sweepDeg| / 90⌉))
  (List.range n).map fun i =>
    let a0 := startDeg + sweepDeg * i / n
    let a1 := startDeg + sweepDeg * (i + 1) / n
    (ovalPointAtDeg oval ((a0 + a1) / 2), ovalPointAtDeg oval a1, arcConicWeight)

/-- Appends a list of conic segments (control point, end point, weight) to a
path. -/
def SkPath.appendConics (p : SkPath) (segs : List (SkPoint × SkPoint × SkScalar)) : SkPath :=
  segs.foldl
    (fun acc seg =>
      { acc with
          verbs := acc.verbs ++ [SkVerb.conic]
          points := acc.points ++ [seg.1, seg.2.1]
          conicWeights := acc.conicWeights ++ [seg.2.2] })
    p

/-- Modelled from the spec: native SkPath::arcTo(oval, startAngle, sweepAngle,
forceMoveTo).  Per the Rust doc comment (path.rs lines 1220-1222): a Line
connects the last point to the arc's first point when force_move_to is false
and the path is not empty; otherwise the added contour begins with the first
point of the arc (a Move to that point, not to (0,0)).  The arc itself is
appended as conic segments. -/
def SkPath.arcTo (p : SkPath) (oval : SkRect) (startAngle sweepAngle : ℚ)
    (forceMoveTo : Bool) : SkPath :=
  let first := ovalPointAtDeg oval startAngle
  let p1 :=
    if forceMoveTo || p.verbs.isEmpty then p.move_to first
    else { p with verbs := p.verbs ++ [SkVerb.line], points := p.points ++ [first] }
  p1.appendConics (arcSegsConics oval startAngle sweepAngle)

/-- Exact-parallelism test standing in for the engine's nearly-parallel
tangent test (the engine tolerance is an internal constant the sources do not
expose); used only by the degenerate branch of the tangent arc. -/
def tangentsParallel (p0 p1 p2 : SkPoint) : Bool :=
  (p1.x - p0.x) * (p2.y - p1.y) - (p1.y - p0.y) * (p2.x - p1.x) == 0

/-- Modelled from the spec: native SkPath::arcTo(x1, y1, x2, y2, radius)
behind arc_to_tangent.  It first injects the implicit Move, then degenerates
to a Line to p1 when the radius is not positive or the tangents are
(nearly) parallel, and otherwise emits one Line onto the first tangent and
one Conic ending on the second tangent (the tangent contact points and
weight are engine-internal numerics; the model uses the segment midpoints
and the placeholder weight). -/
def SkPath.arcToTangent (p : SkPath) (q1 q2 : SkPoint) (radius : ℚ) : SkPath :=
  let p1 := p.injectMoveIfNeeded
  let start := p1.lastPt
  if radius ≤ 0 || tangentsParallel start q1 q2 then
    { p1 with verbs := p1.verbs ++ [SkVerb.line], points := p1.points ++ [q1] }
  else
    let t1 : SkPoint := ⟨(start.x + q1.x) / 2, (start.y + q1.y) / 2⟩
    let t2 : SkPoint := ⟨(q1.x + q2.x) / 2, (q1.y + q2.y) / 2⟩
    { p1 with
        verbs := p1.verbs ++ [SkVerb.line, SkVerb.conic]
        points := p1.points ++ [t1, q1, t2]
        conicWeights := p1.conicWeights ++ [arcConicWeight] }

/-- Arc-size flag of the SVG arc operator: chooses the smaller or larger of
the candidate arcs. -/
inductive SkArcSize where
  | small
  | large
deriving DecidableEq, Repr

/-- Winding direction, standing in for the collaborator PathDirection type. -/
inductive SkPathDirection where
  | cw
  | ccw
deriving DecidableEq, Repr

/-- Modelled from the spec: native SkPath::arcTo(rx, ry, xAxisRotate,
largeArc, sweep, x, y) behind arc_to_rotated (SVG arc semantics).  It first
injects the implicit Move, then degenerates to a Line to the end point when
either radius is zero or the start equals the end, and otherwise appends
conic segments (up to four per the spec; the decomposition numerics are
engine-internal, and the model emits one conic with placeholder control and
weight). -/
def SkPath.arcToRotated (p : SkPath) (rx ry _xAxisRotate : ℚ) (_largeArc : SkArcSize)
    (_sweep : SkPathDirection) (endPt : SkPoint) : SkPath :=
  let p1 := p.injectMoveIfNeeded
  let start := p1.lastPt
  if rx = 0 || ry = 0 || start == endPt then
    { p1 with verbs := p1.verbs ++ [SkVerb.line], points := p1.points ++ [endPt] }
  else
    { p1 with
        verbs := p1.verbs ++ [SkVerb.conic]
        points := p1.points ++ [⟨(start.x + endPt.x) / 2, (start.y + endPt.y) / 2⟩, endPt]
        conicWeights := p1.conicWeights ++ [arcConicWeight] }

/-- Modelled from the spec: native SkPath::rArcTo behind r_arc_to_rotated;
the end point is the last point (or (0,0) on an empty path, per the doc
comment at path.rs lines 1330-1331) offset by the given vector, then the
absolute SVG arc operator is applied. -/
def SkPath.rArcToRotated (p : SkPath) (rx ry xAxisRotate : ℚ) (largeArc : SkArcSize)
    (sweep : SkPathDirection) (d : SkPoint) : SkPath :=
  let base := p.lastPt
  p.arcToRotated rx ry xAxisRotate largeArc sweep ⟨base.x + d.x, base.y + d.y⟩

/-! ### Bulk construction from raw arrays -/

/-- Verb byte values of the native SkPath::Verb enumeration (Move = 0,
Line = 1, Quad = 2, Conic = 3, Cubic = 4, Close = 5), as consumed by the
raw-array constructor and produced by get_verbs. -/
def verbByte : SkVerb → ℕ
  | .move => 0
  | .line => 1
  | .quad => 2
  | .conic => 3
  | .cubic => 4
  | .close => 5

/-- Decodes a verb byte; bytes outside 0..5 are illegal. -/
def verbOfByte : ℕ → Option SkVerb
  | 0 => some .move
  | 1 => some .line
  | 2 => some .quad
  | 3 => some .conic
  | 4 => some .cubic
  | 5 => some .close
  | _ => none

/-- Decodes a whole verb byte array; fails on any illegal byte. -/
def decodeVerbBytes : List ℕ → Option (List SkVerb)
  | [] => some []
  | b :: r =>
    match verbOfByte b, decodeVerbBytes r with
    | some v, some vs => some (v :: vs)
    | _, _ => none

/-- Translated from Path::new_from (path.rs lines 348-368) over the native
C_SkPath_Make, which is behind the FFI and modelled from the new_from doc
comment (path.rs lines 342-347).  The wrapper first converts the three slice
lengths with try_into().unwrap() (path.rs lines 359-363), which panics —
modelled as None — when any slice holds more than i32::MAX elements.
Otherwise the native constructor returns (Some of) a path: if an illegal
sequence of verbs is encountered, or the specified number of points or
weights is not sufficient given the verbs, an empty Path; on success the
path consumes exactly the demanded prefix of the point and weight arrays,
ignoring surplus entries. -/
def newFrom (points : List SkPoint) (verbBytes : List ℕ) (conicWeights : List SkScalar)
    (fillType : SkPathFillType) (isVolatile : Bool) : Option SkPath :=
  if points.length ≤ i32Max ∧ verbBytes.length ≤ i32Max ∧ conicWeights.length ≤ i32Max then
    some (match decodeVerbBytes verbBytes with
      | none => SkPath.empty
      | some vs =>
        if legalVerbSeq vs && decide (ptsNeeded vs ≤ points.length)
            && decide (weightsNeeded vs ≤ conicWeights.length) then
          { fillType := fillType
            verbs := vs
            points := points.take (ptsNeeded vs)
            conicWeights := conicWeights.take (weightsNeeded vs)
            isVolatile := isVolatile }
        else SkPath.empty)
  else none

/-! ### Conic-to-quad conversion -/

/-- Finite value of a scalar, with 0 standing in for the non-finite classes;
used only to feed the placeholder numeric sampling of the conic. -/
def ratOfScalar : SkScalar → ℚ
  | .fin q => q
  | _ => 0

/-- Rational point of the conic with control points p0, p1, p2 and weight w
at parameter t: the standard rational-quadratic-Bezier evaluation.  The
denominator is positive for the parameter range and weights the engine
accepts; a vanishing denominator yields (0,0). -/
def conicEval (p0 p1 p2 : SkPoint) (w t : ℚ) : SkPoint :=
  let a := (1 - t) * (1 - t)
  let b := 2 * w * t * (1 - t)
  let c := t * t
  let d := a + b + c
  if d = 0 then ⟨0, 0⟩
  else ⟨(a * p0.x + b * p1.x + c * p2.x) / d, (a * p0.y + b * p1.y + c * p2.y) / d⟩

/-- Modelled from the spec: the point array the native
SkPath::ConvertConicToQuads writes — 1 + 2·2^pow2 points describing 2^pow2
chained quads.  The engine chops the conic with irrational intermediate
weights; the model samples the conic itself at uniform parameters, which
matches the documented output shape (every third point shared chain-wise)
without fixing engine-internal numerics. -/
def conicQuadPoints (p0 p1 p2 : SkPoint) (w : ℚ) (pow2 : ℕ) : List SkPoint :=
  let steps := 2 * (1 <<< pow2)
  (List.range (1 + steps)).map fun k : ℕ => conicEval p0 p1 p2 w ((k : ℚ) / (steps : ℚ))

/-- Translated from Path::convert_conic_to_quads (path.rs lines 1410-1436):
requires output storage of at least 1 + 2·2^pow2 points (the Rust code
computes max_pts_count = 1 + 2 * (1 << pow2) and compares the slice length);
on success the native conversion writes the quads into the slice prefix and
its quad count is returned, on failure None is returned and the slice is
untouched.  The mutable slice is modelled by state passing: the function
returns the result and the slice contents after the call. -/
def convert_conic_to_quads (p0 p1 p2 : SkPoint) (w : SkScalar) (pts : List SkPoint)
    (pow2 : ℕ) : Option ℕ × List SkPoint :=
  let maxPtsCount := 1 + 2 * (1 <<< pow2)
  if maxPtsCount ≤ pts.length then
    let written := conicQuadPoints p0 p1 p2 (ratOfScalar w) pow2
    (some (1 <<< pow2), written ++ pts.drop maxPtsCount)
  else
    (none, pts)

/-! ### Serialization codec

Modelled from the spec: native C_SkPath_serialize / SkPath::readFromMemory.
The on-wire format is engine-private and opaque; the spec fixes only what it
encodes (fill rule, verb array, point array, conic weights, behind a version
stamp) and the round-trip/failure contract.  The blob is modelled as a token
list; a real byte encoding would additionally fix integer and float layouts
the spec leaves opaque. -/

/-- One token of the serialized blob. -/
inductive SerialTok where
  | n (v : ℕ)
  | q (v : ℚ)
  | s (v : SkScalar)
deriving DecidableEq, Repr

/-- Version stamp of the modelled engine build; deserialize rejects blobs
with any other stamp. -/
def serialVersion : ℕ := 4

/-- Point-array payload: x and y tokens per point, in order. -/
def encodePoints : List SkPoint → List SerialTok
  | [] => []
  | p :: r => SerialTok.q p.x :: SerialTok.q p.y :: encodePoints r

/-- Modelled from the spec: native path serialization; a version stamp and
fill-type code followed by the length-prefixed verb, point and weight
arrays. -/
def SkPath.serialize (p : SkPath) : List SerialTok :=
  SerialTok.n serialVersion :: SerialTok.n p.fillType.code ::
    SerialTok.n p.verbs.length :: (p.verbs.map fun v => SerialTok.n (verbByte v)) ++
    SerialTok.n p.points.length :: encodePoints p.points ++
    SerialTok.n p.conicWeights.length :: p.conicWeights.map SerialTok.s

/-- Reads a counted run of verb bytes, failing on a wrong token kind, an
illegal byte or a short blob. -/
def readVerbs : ℕ → List SerialTok → Option (List SkVerb × List SerialTok)
  | 0, ts => some ([], ts)
  | k + 1, SerialTok.n b :: ts =>
    match verbOfByte b, readVerbs k ts with
    | some v, some (vs, r) => some (v :: vs, r)
    | _, _ => none
  | _ + 1, _ => none

/-- Reads a counted run of points (two rational tokens each). -/
def readPoints : ℕ → List SerialTok → Option (List SkPoint × List SerialTok)
  | 0, ts => some ([], ts)
  | k + 1, SerialTok.q x :: SerialTok.q y :: ts =>
    match readPoints k ts with
    | some (ps, r) => some (⟨x, y⟩ :: ps, r)
    | none => none
  | _ + 1, _ => none

/-- Reads a counted run of conic weights. -/
def readWeights : ℕ → List SerialTok → Option (List SkScalar × List SerialTok)
  | 0, ts => some ([], ts)
  | k + 1, SerialTok.s w :: ts =>
    match readWeights k ts with
    | some (ws, r) => some (w :: ws, r)
    | none => none
  | _ + 1, _ => none

/-- Modelled from the spec: native SkPath::readFromMemory behind
Path::deserialize; parses the blob, rejecting a wrong version, malformed or
truncated payloads, trailing garbage, and structurally inconsistent content
(illegal verb sequence or array lengths that do not match the verbs) —
failure is reported as None, never a fault.  A deserialized path carries the
default volatility hint. -/
def deserialize (ts : List SerialTok) : Option SkPath :=
  match ts with
  | SerialTok.n ver :: SerialTok.n fc :: SerialTok.n nv :: rest =>
    if ver = serialVersion then
      match SkPathFillType.ofCode fc with
      | some ft =>
        match readVerbs nv rest with
        | some (vs, rest1) =>
          match rest1 with
          | SerialTok.n np :: rest2 =>
            match readPoints np rest2 with
            | some (ps, rest3) =>
              match rest3 with
              | SerialTok.n nw :: rest4 =>
                match readWeights nw rest4 with
                | some (ws, rest5) =>
                  if rest5.isEmpty && legalVerbSeq vs && decide (ps.length = ptsNeeded vs)
                      && decide (ws.length = weightsNeeded vs) then
                    some { fillType := ft, verbs := vs, points := ps,
                           conicWeights := ws, isVolatile := false }
                  else none
                | none => none
              | _ => none
            | none => none
          | _ => none
        | none => none
      | none => none
    else none
  | _ => none

/-! ### Copy-on-write storage model

Modelled from the spec: the native SkPath shares its reference-counted
backing storage across copies and materializes a private copy on the first
mutation of a shared instance (clone doc comment at path.rs lines 253-260 and
spec section 4.1).  A store is a list of slots (path data plus reference
count); a handle is an index into the store.  clone bumps the slot's
reference count without copying data; a mutation of a shared slot forks the
data into a fresh slot first. -/

/-- One storage slot: the path data and the number of live handles sharing
it. -/
structure CowSlot where
  data : SkPath
  refs : ℕ
deriving Repr

/-- The shared backing store. -/
abbrev CowStore := List CowSlot

/-- The empty slot used as the out-of-range default. -/
def CowSlot.dead : CowSlot := ⟨SkPath.empty, 0⟩

/-- Reads the path value a handle denotes. -/
def cowRead (st : CowStore) (h : ℕ) : SkPath :=
  (st.getD h CowSlot.dead).data

/-- Modelled from the spec: the copy constructor; the new handle shares the
slot, whose reference count is bumped — no path data is copied. -/
def cowClone (st : CowStore) (h : ℕ) : CowStore :=
  let s := st.getD h CowSlot.dead
  st.set h ⟨s.data, s.refs + 1⟩

/-- Modelled from the spec: a structural mutation through a handle; if the
slot is shared (reference count above one) the data is first forked into a
fresh unshared slot and the handle moves there, leaving the other sharers on
the old slot; otherwise the slot is updated in place.  Returns the updated
store and the handle's new value. -/
def cowMutate (st : CowStore) (h : ℕ) (f : SkPath → SkPath) : CowStore × ℕ :=
  let s := st.getD h CowSlot.dead
  if 1 < s.refs then
    (st.set h ⟨s.data, s.refs - 1⟩ ++ [⟨f s.data, 1⟩], st.length)
  else
    (st.set h ⟨f s.data, 1⟩, h)

/-- Axis-aligned bounds of all points of a path, (0,0,0,0) when there are
none (bounds doc comment at path.rs lines 875-882); derived data used to
state that mutation of a copy leaves the original's bounds unchanged. -/
def computeBounds (p : SkPath) : SkRect :=
  match p.points with
  | [] => ⟨0, 0, 0, 0⟩
  | q :: rest =>
    rest.foldl
      (fun r pt => ⟨min r.left pt.x, min r.top pt.y, max r.right pt.x, max r.bottom pt.y⟩)
      ⟨q.x, q.y, q.x, q.y⟩

/-! ### Generation identifiers

Modelled from the spec: native SkPath::getGenerationID (generation_id doc
comment at path.rs lines 1933-1944) — a non-zero value, changed to a fresh
globally unique one by any change to the verb array, point array or conic
weights, and unchanged by setting the fill type or the volatility hint.  The
process-wide id source is modelled as a counter that starts at 1 and has
issued every id below its current value. -/

/-- A path together with its current generation identifier. -/
structure GenPath where
  path : SkPath
  genId : ℕ
deriving Repr

/-- A structural mutation at the generation-id level: applies the content
change and stamps the path with a fresh id drawn from the process-wide
counter. -/
def structuralMutate (f : SkPath → SkPath) (gp : GenPath) (counter : ℕ) : GenPath × ℕ :=
  (⟨f gp.path, counter⟩, counter + 1)

/-- set_fill_type at the generation-id level: only the fill-type field is
written (path.rs lines 532-535), so the id is untouched. -/
def GenPath.setFillType (gp : GenPath) (ft : SkPathFillType) : GenPath :=
  ⟨gp.path.set_fill_type ft, gp.genId⟩

/-- set_is_volatile at the generation-id level: only the volatility field is
written (path.rs lines 681-684), so the id is untouched. -/
def GenPath.setIsVolatile (gp : GenPath) (b : Bool) : GenPath :=
  ⟨gp.path.set_is_volatile b, gp.genId⟩

/-! ### Iteration protocol -/

/-- One item produced by the standard iterator: the verb, its point payload
(the current point first, as the native Iter returns it), whether a produced
Line was generated from a Close (is_close_line), the conic weight when the
verb is Conic, and whether the item is synthetic (inserted by forced-close
and not present in storage). -/
structure IterItem where
  verb : SkVerb
  pts : List SkPoint
  isCloseLine : Bool
  weight : Option SkScalar
  synthetic : Bool
deriving DecidableEq, Repr

/-- The synthetic trailing pair forced-close iteration appends to an open
contour: a Line from the last point back to the contour start, flagged as a
close-line, followed by a Close; both synthetic. -/
def closePair (last cs : SkPoint) : List IterItem :=
  [⟨SkVerb.line, [last, cs], true, none, true⟩,
   ⟨SkVerb.close, [], false, none, true⟩]

/-- Modelled from the spec: the traversal of native SkPath::Iter (spec
section 4.5), producing the storage items in order; when force-close is set,
each open contour receives the synthetic trailing pair at its end (before
the next Move or at end of stream).  The state carries the remaining verbs,
points and weights, the current contour's start point, the last point
produced, and whether an open contour is in progress.  A malformed stream
(points or weights exhausted early) ends the traversal; stored paths are
always well-formed. -/
def iterGo (fc : Bool) :
    List SkVerb → List SkPoint → List SkScalar → SkPoint → SkPoint → Bool → List IterItem
  | [], _, _, cs, last, openC =>
    if fc && openC then closePair last cs else []
  | .move :: vr, ps, ws, cs, last, openC =>
    (if fc && openC then closePair last cs else []) ++
      match ps with
      | [] => []
      | p :: pr => ⟨SkVerb.move, [p], false, none, false⟩ :: iterGo fc vr pr ws p p true
  | .line :: vr, ps, ws, cs, last, openC =>
    match ps with
    | [] => []
    | p :: pr => ⟨SkVerb.line, [last, p], false, none, false⟩ :: iterGo fc vr pr ws cs p openC
  | .quad :: vr, ps, ws, cs, last, openC =>
    match ps with
    | p1 :: p2 :: pr =>
      ⟨SkVerb.quad, [last, p1, p2], false, none, false⟩ :: iterGo fc vr pr ws cs p2 openC
    | _ => []
  | .conic :: vr, ps, ws, cs, last, openC =>
    match ps, ws with
    | p1 :: p2 :: pr, w :: wr =>
      ⟨SkVerb.conic, [last, p1, p2], false, some w, false⟩ :: iterGo fc vr pr wr cs p2 openC
    | _, _ => []
  | .cubic :: vr, ps, ws, cs, last, openC =>
    match ps with
    | p1 :: p2 :: p3 :: pr =>
      ⟨SkVerb.cubic, [last, p1, p2, p3], false, none, false⟩ :: iterGo fc vr pr ws cs p3 openC
    | _ => []
  | .close :: vr, ps, ws, cs, _, _ =>
    ⟨SkVerb.close, [], false, none, false⟩ :: iterGo fc vr ps ws cs cs false

/-- The full item sequence produced by an Iter constructed over a path with
the given force-close option (Iter::new, path.rs lines 87-92, and the
Iterator instance at lines 161-169). -/
def SkPath.iterItems (p : SkPath) (forceClose : Bool) : List IterItem :=
  iterGo forceClose p.verbs p.points p.conicWeights ⟨0, 0⟩ ⟨0, 0⟩ false

/-! ## Helper lemmas -/

lemma verbOfByte_verbByte (v : SkVerb) : verbOfByte (verbByte v) = some v := by
  cases v <;> rfl

lemma ofCode_code (ft : SkPathFillType) : SkPathFillType.ofCode ft.code = some ft := by
  cases ft <;> rfl

lemma readVerbs_encode (vs : List SkVerb) (r : List SerialTok) :
    readVerbs vs.length ((vs.map fun v => SerialTok.n (verbByte v)) ++ r) = some (vs, r) := by
  induction vs with
  | nil => rfl
  | cons v vr ih => simp [readVerbs, verbOfByte_verbByte, ih]

lemma readPoints_encode (ps : List SkPoint) (r : List SerialTok) :
    readPoints ps.length (encodePoints ps ++ r) = some (ps, r) := by
  induction ps with
  | nil => rfl
  | cons p pr ih => simp [readPoints, encodePoints, ih]

lemma readWeights_encode (ws : List SkScalar) (r : List SerialTok) :
    readWeights ws.length (ws.map SerialTok.s ++ r) = some (ws, r) := by
  induction ws with
  | nil => rfl
  | cons w wr ih => simp [readWeights, ih]

lemma readWeights_encode_nil (ws : List SkScalar) :
    readWeights ws.length (ws.map SerialTok.s) = some (ws, []) := by
  simpa using readWeights_encode ws []

lemma injectMove_of_needsMove (p : SkPath) (h : p.needsMove = true) :
    p.injectMoveIfNeeded =
      { p with verbs := p.verbs ++ [SkVerb.move], points := p.points ++ [⟨0, 0⟩] } := by
  simp [SkPath.injectMoveIfNeeded, h]

lemma inject_append_exists (p res : SkPath) (h : p.needsMove = true)
    (L : List SkVerb) (PS : List SkPoint) (hL : L ≠ [])
    (hv : res.verbs = p.injectMoveIfNeeded.verbs ++ L)
    (hp : res.points = p.injectMoveIfNeeded.points ++ PS) :
    ∃ tv tp, res.verbs = p.verbs ++ SkVerb.move :: tv ∧
      res.points = p.points ++ (⟨0, 0⟩ : SkPoint) :: tp ∧ tv ≠ [] := by
  refine ⟨L, PS, ?_, ?_, hL⟩
  · rw [hv, injectMove_of_needsMove p h]; simp
  · rw [hp, injectMove_of_needsMove p h]; simp

lemma appendConics_shape (segs : List (SkPoint × SkPoint × SkScalar)) (p : SkPath) :
    ∃ tv tp, (p.appendConics segs).verbs = p.verbs ++ tv ∧
      (p.appendConics segs).points = p.points ++ tp := by
  induction segs generalizing p with
  | nil => exact ⟨[], [], by simp [SkPath.appendConics], by simp [SkPath.appendConics]⟩
  | cons s rest ih =>
    obtain ⟨tv, tp, hv, hp⟩ :=
      ih { p with
            verbs := p.verbs ++ [SkVerb.conic]
            points := p.points ++ [s.1, s.2.1]
            conicWeights := p.conicWeights ++ [s.2.2] }
    refine ⟨SkVerb.conic :: tv, s.1 :: s.2.1 :: tp, ?_, ?_⟩
    · rw [show p.appendConics (s :: rest) =
          SkPath.appendConics
            { p with
                verbs := p.verbs ++ [SkVerb.conic]
                points := p.points ++ [s.1, s.2.1]
                conicWeights := p.conicWeights ++ [s.2.2] } rest from rfl, hv]
      simp
    · rw [show p.appendConics (s :: rest) =
          SkPath.appendConics
            { p with
                verbs := p.verbs ++ [SkVerb.conic]
                points := p.points ++ [s.1, s.2.1]
                conicWeights := p.conicWeights ++ [s.2.2] } rest from rfl, hp]
      simp

/-! ## Claim theorems -/

/-- Claim C1: for every valid Path P, deserializing the byte blob produced by
serializing P yields Some path equal to P, where equality covers fill rule,
verb array, point array and conic weights (the native operator==), within the
one modelled engine version. -/
theorem claim_C1 (p : SkPath) (hp : PathValid p) :
    ∃ q, deserialize p.serialize = some q ∧ pathEq q p = true := by
  obtain ⟨h1, h2, h3⟩ := hp
  refine ⟨⟨p.fillType, p.verbs, p.points, p.conicWeights, false⟩, ?_, ?_⟩
  · simp only [SkPath.serialize, deserialize, List.cons_append, List.append_assoc,
      readVerbs_encode, readPoints_encode, ofCode_code, if_pos rfl]
    rw [← h3, readWeights_encode_nil]
    simp [h1, h2, h3]
  · simp [pathEq]

/-- Witness for claim C1 at the concrete path Move(0,0)-Line(5,5). -/
theorem claim_C1_witness :
    PathValid (SkPath.empty.line_to ⟨5, 5⟩) ∧
    ∃ q, deserialize (SkPath.empty.line_to ⟨5, 5⟩).serialize = some q ∧
      pathEq q (SkPath.empty.line_to ⟨5, 5⟩) = true :=
  ⟨by decide, claim_C1 (SkPath.empty.line_to ⟨5, 5⟩) (by decide)⟩

/-- Claim C3: after the implicit-move injection, conic_to with weight exactly
one appends a Quad verb (not a Conic) with points p1, p2 and no conic weight;
with a non-finite weight it appends two Line verbs, to p1 then p2; with any
other finite weight it appends one Conic verb with points p1, p2 and the
weight recorded. -/
theorem claim_C3 (p : SkPath) (q1 q2 : SkPoint) (w : SkScalar) :
    (w = SkScalar.fin 1 →
      p.conic_to q1 q2 w =
        { p.injectMoveIfNeeded with
            verbs := p.injectMoveIfNeeded.verbs ++ [SkVerb.quad]
            points := p.injectMoveIfNeeded.points ++ [q1, q2] }) ∧
    (w.isFinite = false →
      p.conic_to q1 q2 w =
        { p.injectMoveIfNeeded with
            verbs := p.injectMoveIfNeeded.verbs ++ [SkVerb.line, SkVerb.line]
            points := p.injectMoveIfNeeded.points ++ [q1, q2] }) ∧
    (w.isFinite = true → w ≠ SkScalar.fin 1 →
      p.conic_to q1 q2 w =
        { p.injectMoveIfNeeded with
            verbs := p.injectMoveIfNeeded.verbs ++ [SkVerb.conic]
            points := p.injectMoveIfNeeded.points ++ [q1, q2]
            conicWeights := p.injectMoveIfNeeded.conicWeights ++ [w] }) := by
  refine ⟨fun h1 => ?_, fun h2 => ?_, fun h3 h4 => ?_⟩
  · subst h1; simp [SkPath.conic_to, SkScalar.isFinite]
  · simp only [SkPath.conic_to]
    rw [if_pos]
    simp [h2]
  · simp only [SkPath.conic_to]
    rw [if_neg (by simp [h3]), if_neg h4]

/-- Witness for claim C3: the three weight regimes at concrete inputs, on the
empty path with control (1,1) and end (2,0). -/
theorem claim_C3_witness :
    (SkPath.empty.conic_to ⟨1, 1⟩ ⟨2, 0⟩ (SkScalar.fin 1) =
      { SkPath.empty.injectMoveIfNeeded with
          verbs := SkPath.empty.injectMoveIfNeeded.verbs ++ [SkVerb.quad]
          points := SkPath.empty.injectMoveIfNeeded.points ++ [⟨1, 1⟩, ⟨2, 0⟩] }) ∧
    (SkPath.empty.conic_to ⟨1, 1⟩ ⟨2, 0⟩ SkScalar.nan =
      { SkPath.empty.injectMoveIfNeeded with
          verbs := SkPath.empty.injectMoveIfNeeded.verbs ++ [SkVerb.line, SkVerb.line]
          points := SkPath.empty.injectMoveIfNeeded.points ++ [⟨1, 1⟩, ⟨2, 0⟩] }) ∧
    (SkPath.empty.conic_to ⟨1, 1⟩ ⟨2, 0⟩ (SkScalar.fin 2) =
      { SkPath.empty.injectMoveIfNeeded with
          verbs := SkPath.empty.injectMoveIfNeeded.verbs ++ [SkVerb.conic]
          points := SkPath.empty.injectMoveIfNeeded.points ++ [⟨1, 1⟩, ⟨2, 0⟩]
          conicWeights := SkPath.empty.injectMoveIfNeeded.conicWeights ++ [SkScalar.fin 2] }) :=
  ⟨(claim_C3 SkPath.empty ⟨1, 1⟩ ⟨2, 0⟩ (SkScalar.fin 1)).1 rfl,
   (claim_C3 SkPath.empty ⟨1, 1⟩ ⟨2, 0⟩ SkScalar.nan).2.1 rfl,
   (claim_C3 SkPath.empty ⟨1, 1⟩ ⟨2, 0⟩ (SkScalar.fin 2)).2.2 rfl (by decide)⟩

/-- Counterexample to claim C9 as stated: the claim says get_point never
faults on an out-of-range index, but the wrapper converts the index with
try_into().unwrap() (path.rs line 794) before any range handling; on the
two-point path Move(0,0)-Line(5,5) the out-of-range index 2147483648
(i32::MAX + 1) panics (the model's None outcome) instead of returning the
normal not-present result. -/
theorem claim_C9_counterexample :
    (SkPath.empty.line_to ⟨5, 5⟩).count_points ≤ 2147483648 ∧
    (SkPath.empty.line_to ⟨5, 5⟩).get_point 2147483648 = none ∧
    (SkPath.empty.line_to ⟨5, 5⟩).get_point 2147483648 ≠ some none := by
  refine ⟨by decide, ?_, ?_⟩ <;>
    simp [SkPath.get_point, usizeToCInt, i32Max]

/-- Claim C9, amended: for every index that fits the C int the wrapper
converts it into (i ≤ i32::MAX), get_point returns None when the index is at
or beyond the point count and Some of the stored i-th point when it is below
— including a stored (0,0) — without faulting; an index above i32::MAX
panics at the usize-to-int conversion (path.rs line 794) before any range
handling. -/
theorem claim_C9 (p : SkPath) (i : ℕ) :
    (i ≤ i32Max → p.count_points ≤ i → p.get_point i = some none) ∧
    (i ≤ i32Max → ∀ h : i < p.count_points,
      p.get_point i = some (some (p.points.get ⟨i, h⟩))) ∧
    (i32Max < i → p.get_point i = none) := by
  refine ⟨fun hfit hle => ?_, fun hfit h => ?_, fun hgt => ?_⟩
  · have hd : p.nativeGetPoint i = ⟨0, 0⟩ := by
      simp [SkPath.nativeGetPoint, List.getD_eq_getElem?_getD,
        List.getElem?_eq_none (by exact hle)]
    simp [SkPath.get_point, usizeToCInt, hfit, hd, Nat.not_lt_of_le hle]
  · have hd : p.nativeGetPoint i = p.points.get ⟨i, h⟩ := by
      simp [SkPath.nativeGetPoint, List.getD_eq_getElem?_getD, List.getElem?_eq_getElem h]
    simp [SkPath.get_point, usizeToCInt, hfit, hd, h]
  · simp [SkPath.get_point, usizeToCInt, Nat.not_le_of_lt hgt]

/-- Witness for claim C9: on the path Move(0,0)-Line(5,5), index 0 returns
the stored point even though it equals (0,0), index 7 returns the normal
not-present result, and index 2147483648 panics at the conversion. -/
theorem claim_C9_witness :
    (SkPath.empty.line_to ⟨5, 5⟩).get_point 7 = some none ∧
    (SkPath.empty.line_to ⟨5, 5⟩).get_point 0 =
      some (some ((SkPath.empty.line_to ⟨5, 5⟩).points.get ⟨0, by decide⟩)) ∧
    (SkPath.empty.line_to ⟨5, 5⟩).get_point 2147483648 = none :=
  ⟨(claim_C9 (SkPath.empty.line_to ⟨5, 5⟩) 7).1 (by decide) (by decide),
   (claim_C9 (SkPath.empty.line_to ⟨5, 5⟩) 0).2.1 (by decide) (by decide),
   (claim_C9 (SkPath.empty.line_to ⟨5, 5⟩) 2147483648).2.2 (by decide)⟩

/-- Fill-rule inversion as the specification words it: Winding maps to
InverseWinding, EvenOdd to InverseEvenOdd, and vice versa. -/
def fillTypeInverseSpec : SkPathFillType → SkPathFillType
  | .winding => .inverseWinding
  | .evenOdd => .inverseEvenOdd
  | .inverseWinding => .winding
  | .inverseEvenOdd => .evenOdd

/-- Claim C10: toggle_inverse_fill_type changes only the fill rule, realising
the Winding-InverseWinding / EvenOdd-InverseEvenOdd swap as XOR of the
fill-type code with 2; applying it twice restores the path exactly, and
is_inverse_fill_type flips on each application. -/
theorem claim_C10 (p : SkPath) :
    p.toggle_inverse_fill_type.verbs = p.verbs ∧
    p.toggle_inverse_fill_type.points = p.points ∧
    p.toggle_inverse_fill_type.conicWeights = p.conicWeights ∧
    p.toggle_inverse_fill_type.isVolatile = p.isVolatile ∧
    p.toggle_inverse_fill_type.fillType.code = p.fillType.code ^^^ 2 ∧
    p.toggle_inverse_fill_type.fillType = fillTypeInverseSpec p.fillType ∧
    p.toggle_inverse_fill_type.toggle_inverse_fill_type = p ∧
    p.toggle_inverse_fill_type.is_inverse_fill_type = ! p.is_inverse_fill_type := by
  obtain ⟨ft, vs, ps, ws, vol⟩ := p
  cases ft <;>
    simp [SkPath.toggle_inverse_fill_type, SkPath.is_inverse_fill_type, fillTypeInverseSpec,
      SkPathFillType.code, SkPathFillType.ofCodeTotal, SkPathFillType.ofCode,
      SkPathFillType.isInverse]

/-- Counterexample to claim C2 as stated: arc_to(oval, 0°, 90°, force=false)
on the empty path does not append a Move with point (0,0) first — per the
src doc comment (path.rs lines 1220-1222) the added contour begins with the
first point of the arc, here (2,1) on the oval [0,0]x[2,2]; so the first
stored point is (2,1), not (0,0). -/
theorem claim_C2_counterexample :
    SkPath.empty.needsMove = true ∧
    (SkPath.empty.arcTo ⟨0, 0, 2, 2⟩ 0 90 false).verbs.head? = some SkVerb.move ∧
    (SkPath.empty.arcTo ⟨0, 0, 2, 2⟩ 0 90 false).points.head? = some ⟨2, 1⟩ ∧
    ¬ (SkPath.empty.arcTo ⟨0, 0, 2, 2⟩ 0 90 false).points.head? = some ⟨0, 0⟩ := by
  have hfirst : ovalPointAtDeg ⟨0, 0, 2, 2⟩ 0 = ⟨2, 1⟩ := by
    simp only [ovalPointAtDeg, cosDegQ, sinDegQ]
    norm_num
  have harc : SkPath.empty.arcTo ⟨0, 0, 2, 2⟩ 0 90 false =
      (SkPath.empty.move_to (ovalPointAtDeg ⟨0, 0, 2, 2⟩ 0)).appendConics
        (arcSegsConics ⟨0, 0, 2, 2⟩ 0 90) := by
    simp [SkPath.arcTo, SkPath.empty]
  obtain ⟨tv, tp, hv, hp⟩ :=
    appendConics_shape (arcSegsConics ⟨0, 0, 2, 2⟩ 0 90)
      (SkPath.empty.move_to (ovalPointAtDeg ⟨0, 0, 2, 2⟩ 0))
  have hhead : (SkPath.empty.arcTo ⟨0, 0, 2, 2⟩ 0 90 false).points.head? = some ⟨2, 1⟩ := by
    rw [harc, hp]
    simp [SkPath.move_to, SkPath.empty, hfirst]
  refine ⟨by decide, ?_, hhead, ?_⟩
  · rw [harc, hv]
    simp [SkPath.move_to, SkPath.empty]
  · rw [hhead]
    decide

/-- Claim C2, amended: line_to, quad_to, conic_to, cubic_to, arc_to_tangent,
arc_to_rotated and r_arc_to_rotated applied to a path that is empty or whose
last stored verb is Close first append a Move verb with point (0,0) and then
the requested segment; in particular Path::new().line_to((5,5)) yields verbs
[Move, Line] and points [(0,0), (5,5)].  arc_to(oval, start, sweep,
force_move) is the exception: on an empty path (or when force_move is set)
the added contour begins with a Move to the arc's first point on the oval,
not to (0,0). -/
theorem claim_C2 :
    (∀ (p : SkPath) (q : SkPoint), p.needsMove = true →
      ∃ tv tp, (p.line_to q).verbs = p.verbs ++ SkVerb.move :: tv ∧
        (p.line_to q).points = p.points ++ (⟨0, 0⟩ : SkPoint) :: tp ∧ tv ≠ []) ∧
    (∀ (p : SkPath) (q1 q2 : SkPoint), p.needsMove = true →
      ∃ tv tp, (p.quad_to q1 q2).verbs = p.verbs ++ SkVerb.move :: tv ∧
        (p.quad_to q1 q2).points = p.points ++ (⟨0, 0⟩ : SkPoint) :: tp ∧ tv ≠ []) ∧
    (∀ (p : SkPath) (q1 q2 : SkPoint) (w : SkScalar), p.needsMove = true →
      ∃ tv tp, (p.conic_to q1 q2 w).verbs = p.verbs ++ SkVerb.move :: tv ∧
        (p.conic_to q1 q2 w).points = p.points ++ (⟨0, 0⟩ : SkPoint) :: tp ∧ tv ≠ []) ∧
    (∀ (p : SkPath) (q1 q2 q3 : SkPoint), p.needsMove = true →
      ∃ tv tp, (p.cubic_to q1 q2 q3).verbs = p.verbs ++ SkVerb.move :: tv ∧
        (p.cubic_to q1 q2 q3).points = p.points ++ (⟨0, 0⟩ : SkPoint) :: tp ∧ tv ≠ []) ∧
    (∀ (p : SkPath) (q1 q2 : SkPoint) (radius : ℚ), p.needsMove = true →
      ∃ tv tp, (p.arcToTangent q1 q2 radius).verbs = p.verbs ++ SkVerb.move :: tv ∧
        (p.arcToTangent q1 q2 radius).points = p.points ++ (⟨0, 0⟩ : SkPoint) :: tp ∧ tv ≠ []) ∧
    (∀ (p : SkPath) (rx ry rot : ℚ) (la : SkArcSize) (sw : SkPathDirection) (endPt : SkPoint),
      p.needsMove = true →
      ∃ tv tp, (p.arcToRotated rx ry rot la sw endPt).verbs = p.verbs ++ SkVerb.move :: tv ∧
        (p.arcToRotated rx ry rot la sw endPt).points =
          p.points ++ (⟨0, 0⟩ : SkPoint) :: tp ∧ tv ≠ []) ∧
    (∀ (p : SkPath) (rx ry rot : ℚ) (la : SkArcSize) (sw : SkPathDirection) (d : SkPoint),
      p.needsMove = true →
      ∃ tv tp, (p.rArcToRotated rx ry rot la sw d).verbs = p.verbs ++ SkVerb.move :: tv ∧
        (p.rArcToRotated rx ry rot la sw d).points =
          p.points ++ (⟨0, 0⟩ : SkPoint) :: tp ∧ tv ≠ []) ∧
    (∀ (p : SkPath) (oval : SkRect) (a b : ℚ) (force : Bool),
      p.verbs = [] → p.points = [] →
      ∃ tv tp, (p.arcTo oval a b force).verbs = SkVerb.move :: tv ∧
        (p.arcTo oval a b force).points = ovalPointAtDeg oval a :: tp) ∧
    SkPath.empty.line_to ⟨5, 5⟩ =
      { fillType := SkPathFillType.winding, verbs := [SkVerb.move, SkVerb.line],
        points := [⟨0, 0⟩, ⟨5, 5⟩], conicWeights := [], isVolatile := false } := by
  refine ⟨?_, ?_, ?_, ?_, ?_, ?_, ?_, ?_, by decide⟩
  · intro p q h
    exact inject_append_exists p _ h [SkVerb.line] [q] (by simp) rfl rfl
  · intro p q1 q2 h
    exact inject_append_exists p _ h [SkVerb.quad] [q1, q2] (by simp) rfl rfl
  · intro p q1 q2 w h
    simp only [SkPath.conic_to]
    split
    · exact inject_append_exists p _ h [SkVerb.line, SkVerb.line] [q1, q2] (by simp) rfl rfl
    · split
      · exact inject_append_exists p _ h [SkVerb.quad] [q1, q2] (by simp) rfl rfl
      · exact inject_append_exists p _ h [SkVerb.conic] [q1, q2] (by simp) rfl rfl
  · intro p q1 q2 q3 h
    exact inject_append_exists p _ h [SkVerb.cubic] [q1, q2, q3] (by simp) rfl rfl
  · intro p q1 q2 radius h
    simp only [SkPath.arcToTangent]
    split
    · exact inject_append_exists p _ h [SkVerb.line] [q1] (by simp) rfl rfl
    · exact inject_append_exists p _ h [SkVerb.line, SkVerb.conic] _ (by simp) rfl rfl
  · intro p rx ry rot la sw endPt h
    simp only [SkPath.arcToRotated]
    split
    · exact inject_append_exists p _ h [SkVerb.line] [endPt] (by simp) rfl rfl
    · exact inject_append_exists p _ h [SkVerb.conic] _ (by simp) rfl rfl
  · intro p rx ry rot la sw d h
    simp only [SkPath.rArcToRotated, SkPath.arcToRotated]
    split
    · exact inject_append_exists p _ h [SkVerb.line] _ (by simp) rfl rfl
    · exact inject_append_exists p _ h [SkVerb.conic] _ (by simp) rfl rfl
  · intro p oval a b force hv hp
    obtain ⟨tv, tp, hv2, hp2⟩ :=
      appendConics_shape (arcSegsConics oval a b) (p.move_to (ovalPointAtDeg oval a))
    refine ⟨tv, tp, ?_, ?_⟩
    · simp only [SkPath.arcTo, hv, List.isEmpty_nil, Bool.or_true, if_true]
      rw [hv2]
      simp [SkPath.move_to, hv]
    · simp only [SkPath.arcTo, hv, List.isEmpty_nil, Bool.or_true, if_true]
      rw [hp2]
      simp [SkPath.move_to, hp]

/-- Witness for claim C2: each hypothesis-bearing conjunct instantiated at a
concrete input on the empty path (which needs the implicit move). -/
theorem claim_C2_witness :
    (∃ tv tp, (SkPath.empty.line_to ⟨5, 5⟩).verbs = SkPath.empty.verbs ++ SkVerb.move :: tv ∧
      (SkPath.empty.line_to ⟨5, 5⟩).points =
        SkPath.empty.points ++ (⟨0, 0⟩ : SkPoint) :: tp ∧ tv ≠ []) ∧
    (∃ tv tp, (SkPath.empty.quad_to ⟨1, 1⟩ ⟨2, 0⟩).verbs =
        SkPath.empty.verbs ++ SkVerb.move :: tv ∧
      (SkPath.empty.quad_to ⟨1, 1⟩ ⟨2, 0⟩).points =
        SkPath.empty.points ++ (⟨0, 0⟩ : SkPoint) :: tp ∧ tv ≠ []) ∧
    (∃ tv tp, (SkPath.empty.conic_to ⟨1, 1⟩ ⟨2, 0⟩ (SkScalar.fin 3)).verbs =
        SkPath.empty.verbs ++ SkVerb.move :: tv ∧
      (SkPath.empty.conic_to ⟨1, 1⟩ ⟨2, 0⟩ (SkScalar.fin 3)).points =
        SkPath.empty.points ++ (⟨0, 0⟩ : SkPoint) :: tp ∧ tv ≠ []) ∧
    (∃ tv tp, (SkPath.empty.cubic_to ⟨1, 1⟩ ⟨2, 0⟩ ⟨3, 3⟩).verbs =
        SkPath.empty.verbs ++ SkVerb.move :: tv ∧
      (SkPath.empty.cubic_to ⟨1, 1⟩ ⟨2, 0⟩ ⟨3, 3⟩).points =
        SkPath.empty.points ++ (⟨0, 0⟩ : SkPoint) :: tp ∧ tv ≠ []) ∧
    (∃ tv tp, (SkPath.empty.arcToTangent ⟨1, 0⟩ ⟨1, 1⟩ 1).verbs =
        SkPath.empty.verbs ++ SkVerb.move :: tv ∧
      (SkPath.empty.arcToTangent ⟨1, 0⟩ ⟨1, 1⟩ 1).points =
        SkPath.empty.points ++ (⟨0, 0⟩ : SkPoint) :: tp ∧ tv ≠ []) ∧
    (∃ tv tp, (SkPath.empty.arcToRotated 1 1 0 SkArcSize.small SkPathDirection.cw ⟨1, 1⟩).verbs =
        SkPath.empty.verbs ++ SkVerb.move :: tv ∧
      (SkPath.empty.arcToRotated 1 1 0 SkArcSize.small SkPathDirection.cw ⟨1, 1⟩).points =
        SkPath.empty.points ++ (⟨0, 0⟩ : SkPoint) :: tp ∧ tv ≠ []) ∧
    (∃ tv tp, (SkPath.empty.rArcToRotated 1 1 0 SkArcSize.small SkPathDirection.cw ⟨1, 1⟩).verbs =
        SkPath.empty.verbs ++ SkVerb.move :: tv ∧
      (SkPath.empty.rArcToRotated 1 1 0 SkArcSize.small SkPathDirection.cw ⟨1, 1⟩).points =
        SkPath.empty.points ++ (⟨0, 0⟩ : SkPoint) :: tp ∧ tv ≠ []) ∧
    (∃ tv tp, (SkPath.empty.arcTo ⟨0, 0, 2, 2⟩ 0 90 false).verbs = SkVerb.move :: tv ∧
      (SkPath.empty.arcTo ⟨0, 0, 2, 2⟩ 0 90 false).points =
        ovalPointAtDeg ⟨0, 0, 2, 2⟩ 0 :: tp) :=
  ⟨claim_C2.1 SkPath.empty ⟨5, 5⟩ (by decide),
   claim_C2.2.1 SkPath.empty ⟨1, 1⟩ ⟨2, 0⟩ (by decide),
   claim_C2.2.2.1 SkPath.empty ⟨1, 1⟩ ⟨2, 0⟩ (SkScalar.fin 3) (by decide),
   claim_C2.2.2.2.1 SkPath.empty ⟨1, 1⟩ ⟨2, 0⟩ ⟨3, 3⟩ (by decide),
   claim_C2.2.2.2.2.1 SkPath.empty ⟨1, 0⟩ ⟨1, 1⟩ 1 (by decide),
   claim_C2.2.2.2.2.2.1 SkPath.empty 1 1 0 SkArcSize.small SkPathDirection.cw ⟨1, 1⟩ (by decide),
   claim_C2.2.2.2.2.2.2.1 SkPath.empty 1 1 0 SkArcSize.small SkPathDirection.cw ⟨1, 1⟩ (by decide),
   claim_C2.2.2.2.2.2.2.2.1 SkPath.empty ⟨0, 0, 2, 2⟩ 0 90 false rfl rfl⟩

/-- Counterexample to claim C4 as stated: with one Move verb and two supplied
points, the point count (2) does not exactly match what the verb sequence
demands (1), yet new_from does not return an empty Path — per the src doc
comment (path.rs lines 342-343) only an insufficient point or weight supply
fails; the surplus point is ignored and a one-verb path is built. -/
theorem claim_C4_counterexample :
    newFrom [⟨1, 2⟩, ⟨3, 4⟩] [0] [] SkPathFillType.winding false =
      some { fillType := SkPathFillType.winding, verbs := [SkVerb.move], points := [⟨1, 2⟩],
             conicWeights := [], isVolatile := false } ∧
    newFrom [⟨1, 2⟩, ⟨3, 4⟩] [0] [] SkPathFillType.winding false ≠ some SkPath.empty ∧
    ([(⟨1, 2⟩ : SkPoint), ⟨3, 4⟩].length ≠ ptsNeeded [SkVerb.move]) := by
  decide

/-- Claim C4, amended: for inputs whose point, verb and weight slices each
hold at most i32::MAX elements, new_from returns the empty Path — never a
partially built path — exactly when the verb byte sequence is illegal
(undecodable byte or broken contour grammar) or the supplied points or conic
weights are fewer than the verb sequence demands; otherwise it builds the
full path from the demanded prefixes of the arrays, ignoring any surplus
points or weights.  A slice longer than i32::MAX panics at the
length-conversion unwraps (path.rs lines 359-363) before any validation. -/
theorem claim_C4 (points : List SkPoint) (verbBytes : List ℕ) (weights : List SkScalar)
    (ft : SkPathFillType) (vol : Bool) :
    (points.length ≤ i32Max → verbBytes.length ≤ i32Max → weights.length ≤ i32Max →
      decodeVerbBytes verbBytes = none →
      newFrom points verbBytes weights ft vol = some SkPath.empty) ∧
    (points.length ≤ i32Max → verbBytes.length ≤ i32Max → weights.length ≤ i32Max →
      ∀ vs, decodeVerbBytes verbBytes = some vs →
      (legalVerbSeq vs = false ∨ points.length < ptsNeeded vs ∨
        weights.length < weightsNeeded vs) →
      newFrom points verbBytes weights ft vol = some SkPath.empty) ∧
    (points.length ≤ i32Max → verbBytes.length ≤ i32Max → weights.length ≤ i32Max →
      ∀ vs, decodeVerbBytes verbBytes = some vs → legalVerbSeq vs = true →
      ptsNeeded vs ≤ points.length → weightsNeeded vs ≤ weights.length →
      newFrom points verbBytes weights ft vol =
        some { fillType := ft, verbs := vs, points := points.take (ptsNeeded vs),
               conicWeights := weights.take (weightsNeeded vs), isVolatile := vol }) ∧
    (i32Max < points.length ∨ i32Max < verbBytes.length ∨ i32Max < weights.length →
      newFrom points verbBytes weights ft vol = none) := by
  refine ⟨fun hp hv hw h => ?_, fun hp hv hw vs hvs hbad => ?_,
    fun hp hv hw vs hvs h1 h2 h3 => ?_, fun hbig => ?_⟩
  · rw [newFrom, if_pos ⟨hp, hv, hw⟩]
    simp [h]
  · rw [newFrom, if_pos ⟨hp, hv, hw⟩]
    simp only [hvs]
    rw [if_neg]
    rcases hbad with hb | hb | hb
    · simp [hb]
    · simp [Nat.not_le_of_lt hb]
    · simp [Nat.not_le_of_lt hb]
  · rw [newFrom, if_pos ⟨hp, hv, hw⟩]
    simp [hvs, h1, h2, h3]
  · have hneg : ¬ (points.length ≤ i32Max ∧ verbBytes.length ≤ i32Max ∧
        weights.length ≤ i32Max) := by
      intro hc
      rcases hbig with hb | hb | hb <;> omega
    rw [newFrom, if_neg hneg]

/-- Witness for claim C4: an illegal first verb (Line with no Move) yields
the empty path, as does an undecodable verb byte and a missing point; the
surplus-point input builds the one-verb path; an i32::MAX + 1 element verb
slice panics at the length conversion. -/
theorem claim_C4_witness :
    (newFrom [] [9] [] SkPathFillType.winding false = some SkPath.empty) ∧
    (newFrom [⟨1, 1⟩] [1] [] SkPathFillType.winding false = some SkPath.empty) ∧
    (newFrom [] [0] [] SkPathFillType.winding false = some SkPath.empty) ∧
    (newFrom [⟨1, 2⟩, ⟨3, 4⟩] [0] [] SkPathFillType.winding false =
      some { fillType := SkPathFillType.winding, verbs := [SkVerb.move],
             points := [(⟨1, 2⟩ : SkPoint), ⟨3, 4⟩].take (ptsNeeded [SkVerb.move]),
             conicWeights := List.take (weightsNeeded [SkVerb.move]) [],
             isVolatile := false }) ∧
    (newFrom [] (List.replicate 2147483648 0) [] SkPathFillType.winding false = none) :=
  ⟨(claim_C4 [] [9] [] SkPathFillType.winding false).1
     (by decide) (by decide) (by decide) rfl,
   (claim_C4 [⟨1, 1⟩] [1] [] SkPathFillType.winding false).2.1
     (by decide) (by decide) (by decide) [SkVerb.line] rfl (Or.inl (by decide)),
   (claim_C4 [] [0] [] SkPathFillType.winding false).2.1
     (by decide) (by decide) (by decide) [SkVerb.move] rfl (Or.inr (Or.inl (by decide))),
   (claim_C4 [⟨1, 2⟩, ⟨3, 4⟩] [0] [] SkPathFillType.winding false).2.2.1
     (by decide) (by decide) (by decide) [SkVerb.move] rfl (by decide) (by decide) (by decide),
   (claim_C4 [] (List.replicate 2147483648 0) [] SkPathFillType.winding false).2.2.2
     (Or.inr (Or.inl (by simp only [List.length_replicate]; decide)))⟩

/-- Claim C5: convert_conic_to_quads returns None and leaves the output
buffer untouched whenever the buffer holds fewer than 1 + 2·2^pow2 points,
and returns Some n with n ≤ 2^pow2 quads written into the buffer prefix —
the suffix beyond the written 1 + 2n points is untouched — whenever the
buffer holds at least 1 + 2·2^pow2 points, for pow2 in 0..=5. -/
theorem claim_C5 (p0 p1 p2 : SkPoint) (w : SkScalar) (pts : List SkPoint) (pow2 : ℕ)
    (_hpow : pow2 ≤ 5) :
    (pts.length < 1 + 2 * 2 ^ pow2 →
      convert_conic_to_quads p0 p1 p2 w pts pow2 = (none, pts)) ∧
    (1 + 2 * 2 ^ pow2 ≤ pts.length →
      ∃ n, (convert_conic_to_quads p0 p1 p2 w pts pow2).1 = some n ∧ n ≤ 2 ^ pow2 ∧
        (convert_conic_to_quads p0 p1 p2 w pts pow2).2.length = pts.length ∧
        (convert_conic_to_quads p0 p1 p2 w pts pow2).2.drop (1 + 2 * n) =
          pts.drop (1 + 2 * n)) := by
  have hshift : (1 : ℕ) <<< pow2 = 2 ^ pow2 := Nat.one_shiftLeft pow2
  constructor
  · intro hlt
    simp only [convert_conic_to_quads, hshift]
    rw [if_neg (Nat.not_le_of_lt hlt)]
  · intro hle
    have hwlen : (conicQuadPoints p0 p1 p2 (ratOfScalar w) pow2).length = 1 + 2 * 2 ^ pow2 := by
      unfold conicQuadPoints
      dsimp only
      rw [List.length_map, List.length_range, hshift]
    refine ⟨2 ^ pow2, ?_, le_refl _, ?_, ?_⟩
    · simp only [convert_conic_to_quads, hshift]
      rw [if_pos hle]
    · simp only [convert_conic_to_quads, hshift]
      rw [if_pos hle]
      simp [hwlen]
      omega
    · simp only [convert_conic_to_quads, hshift]
      rw [if_pos hle]
      have : (conicQuadPoints p0 p1 p2 (ratOfScalar w) pow2 ++
          pts.drop (1 + 2 * 2 ^ pow2)).drop (1 + 2 * 2 ^ pow2) = pts.drop (1 + 2 * 2 ^ pow2) := by
        rw [← hwlen, List.drop_left]
      simpa using this

/-- Witness for claim C5 with pow2 = 1: a 4-point buffer reports
insufficient storage and is untouched; a 5-point buffer succeeds with at
most 2 quads written. -/
theorem claim_C5_witness :
    (convert_conic_to_quads ⟨0, 0⟩ ⟨1, 1⟩ ⟨2, 0⟩ (SkScalar.fin 2)
        [⟨9, 9⟩, ⟨9, 9⟩, ⟨9, 9⟩, ⟨9, 9⟩] 1 =
      (none, [⟨9, 9⟩, ⟨9, 9⟩, ⟨9, 9⟩, ⟨9, 9⟩])) ∧
    (∃ n, (convert_conic_to_quads ⟨0, 0⟩ ⟨1, 1⟩ ⟨2, 0⟩ (SkScalar.fin 2)
        [⟨9, 9⟩, ⟨9, 9⟩, ⟨9, 9⟩, ⟨9, 9⟩, ⟨9, 9⟩] 1).1 = some n ∧ n ≤ 2 ^ 1 ∧
      (convert_conic_to_quads ⟨0, 0⟩ ⟨1, 1⟩ ⟨2, 0⟩ (SkScalar.fin 2)
        [⟨9, 9⟩, ⟨9, 9⟩, ⟨9, 9⟩, ⟨9, 9⟩, ⟨9, 9⟩] 1).2.length = 5 ∧
      (convert_conic_to_quads ⟨0, 0⟩ ⟨1, 1⟩ ⟨2, 0⟩ (SkScalar.fin 2)
        [⟨9, 9⟩, ⟨9, 9⟩, ⟨9, 9⟩, ⟨9, 9⟩, ⟨9, 9⟩] 1).2.drop (1 + 2 * n) =
        [(⟨9, 9⟩ : SkPoint), ⟨9, 9⟩, ⟨9, 9⟩, ⟨9, 9⟩, ⟨9, 9⟩].drop (1 + 2 * n)) :=
  ⟨(claim_C5 ⟨0, 0⟩ ⟨1, 1⟩ ⟨2, 0⟩ (SkScalar.fin 2) [⟨9, 9⟩, ⟨9, 9⟩, ⟨9, 9⟩, ⟨9, 9⟩] 1
      (by decide)).1 (by decide),
   (claim_C5 ⟨0, 0⟩ ⟨1, 1⟩ ⟨2, 0⟩ (SkScalar.fin 2) [⟨9, 9⟩, ⟨9, 9⟩, ⟨9, 9⟩, ⟨9, 9⟩, ⟨9, 9⟩] 1
      (by decide)).2 (by decide)⟩

lemma cowRead_append_left (A B : CowStore) (i : ℕ) (hi : i < A.length) :
    cowRead (A ++ B) i = cowRead A i := by
  rw [cowRead, cowRead, List.getD_eq_getElem?_getD, List.getD_eq_getElem?_getD,
    List.getElem?_append_left hi]

lemma cowRead_set_self (l : CowStore) (i : ℕ) (a : CowSlot) (hi : i < l.length) :
    cowRead (l.set i a) i = a.data := by
  rw [cowRead, List.getD_eq_getElem?_getD, List.getElem?_set_self hi]
  rfl

lemma cowRead_concat (A : CowStore) (b : CowSlot) (n : ℕ) (hn : n = A.length) :
    cowRead (A ++ [b]) n = b.data := by
  subst hn
  rw [cowRead, List.getD_eq_getElem?_getD, List.getElem?_concat_length]
  rfl

/-- Claim C6: cloning a path and then applying an arbitrary mutation to the
clone leaves the original's entire logical value — verbs, points, weights,
fill rule (all in the slot data) and bounds — unchanged, despite the
copy-on-write storage sharing: the clone is a reference-count bump, and the
mutation of the shared slot forks private storage first. -/
theorem claim_C6 (st : CowStore) (h : ℕ) (f : SkPath → SkPath)
    (hh : h < st.length) (hr : 1 ≤ (st.getD h CowSlot.dead).refs) :
    (∀ k, cowRead (cowClone st h) k = cowRead st k) ∧
    cowRead (cowMutate (cowClone st h) h f).1 h = cowRead st h ∧
    cowRead (cowMutate (cowClone st h) h f).1 (cowMutate (cowClone st h) h f).2 =
      f (cowRead st h) ∧
    computeBounds (cowRead (cowMutate (cowClone st h) h f).1 h) =
      computeBounds (cowRead st h) := by
  have hclone : cowClone st h =
      st.set h ⟨(st.getD h CowSlot.dead).data, (st.getD h CowSlot.dead).refs + 1⟩ := rfl
  have hlenclone : (cowClone st h).length = st.length := by
    rw [hclone, List.length_set]
  have hgetclone : (cowClone st h).getD h CowSlot.dead =
      ⟨(st.getD h CowSlot.dead).data, (st.getD h CowSlot.dead).refs + 1⟩ := by
    rw [hclone]
    simp [List.getD_eq_getElem?_getD, List.getElem?_set_self, hh]
  have hshared : 1 < ((cowClone st h).getD h CowSlot.dead).refs := by
    rw [hgetclone]
    exact Nat.lt_succ_of_le hr
  have hmut : cowMutate (cowClone st h) h f =
      ((cowClone st h).set h
          ⟨((cowClone st h).getD h CowSlot.dead).data,
            ((cowClone st h).getD h CowSlot.dead).refs - 1⟩ ++
        [⟨f ((cowClone st h).getD h CowSlot.dead).data, 1⟩],
       (cowClone st h).length) := by
    rw [cowMutate, if_pos hshared]
  have hread : ∀ k, cowRead (cowClone st h) k = cowRead st k := by
    intro k
    by_cases hk : k = h
    · subst hk
      rw [cowRead, hgetclone]
      rfl
    · simp [cowRead, hclone, List.getD_eq_getElem?_getD,
        List.getElem?_set_ne (fun he => hk he.symm)]
  have horiginal : cowRead (cowMutate (cowClone st h) h f).1 h = cowRead st h := by
    rw [hmut]
    rw [cowRead_append_left _ _ h (by rw [List.length_set, hlenclone]; exact hh)]
    rw [cowRead_set_self _ h _ (by rw [hlenclone]; exact hh)]
    rw [hgetclone]
    rfl
  refine ⟨hread, horiginal, ?_, by rw [horiginal]⟩
  rw [hmut]
  rw [cowRead_concat _ _ _ (List.length_set _ _ _).symm]
  rw [hgetclone]
  rfl

/-- Witness for claim C6: a one-slot store holding the rectangle-like path
Move-Line, cloned and mutated with a line_to; the original handle still reads
the original path and bounds. -/
theorem claim_C6_witness :
    (cowRead (cowClone [⟨SkPath.empty.line_to ⟨5, 5⟩, 1⟩] 0) 0 =
      cowRead [⟨SkPath.empty.line_to ⟨5, 5⟩, 1⟩] 0) ∧
    cowRead (cowMutate (cowClone [⟨SkPath.empty.line_to ⟨5, 5⟩, 1⟩] 0) 0
        (fun p => p.line_to ⟨7, 7⟩)).1 0 =
      cowRead [⟨SkPath.empty.line_to ⟨5, 5⟩, 1⟩] 0 ∧
    cowRead (cowMutate (cowClone [⟨SkPath.empty.line_to ⟨5, 5⟩, 1⟩] 0) 0
        (fun p => p.line_to ⟨7, 7⟩)).1
        (cowMutate (cowClone [⟨SkPath.empty.line_to ⟨5, 5⟩, 1⟩] 0) 0
          (fun p => p.line_to ⟨7, 7⟩)).2 =
      (cowRead [⟨SkPath.empty.line_to ⟨5, 5⟩, 1⟩] 0).line_to ⟨7, 7⟩ ∧
    computeBounds (cowRead (cowMutate (cowClone [⟨SkPath.empty.line_to ⟨5, 5⟩, 1⟩] 0) 0
        (fun p => p.line_to ⟨7, 7⟩)).1 0) =
      computeBounds (cowRead [⟨SkPath.empty.line_to ⟨5, 5⟩, 1⟩] 0) :=
  ⟨(claim_C6 [⟨SkPath.empty.line_to ⟨5, 5⟩, 1⟩] 0 (fun p => p.line_to ⟨7, 7⟩)
      (by decide) (by decide)).1 0,
   (claim_C6 [⟨SkPath.empty.line_to ⟨5, 5⟩, 1⟩] 0 (fun p => p.line_to ⟨7, 7⟩)
      (by decide) (by decide)).2.1,
   (claim_C6 [⟨SkPath.empty.line_to ⟨5, 5⟩, 1⟩] 0 (fun p => p.line_to ⟨7, 7⟩)
      (by decide) (by decide)).2.2.1,
   (claim_C6 [⟨SkPath.empty.line_to ⟨5, 5⟩, 1⟩] 0 (fun p => p.line_to ⟨7, 7⟩)
      (by decide) (by decide)).2.2.2⟩

/-- Claim C7: with the process-wide id counter at a value strictly above
every id issued so far (and at least 1), any structural mutation stamps the
path with a new id that is non-zero, differs from the path's previous id and
from every previously issued id, and leaves the counter above the new id;
setting only the fill type or the volatility hint leaves the id unchanged. -/
theorem claim_C7 (f : SkPath → SkPath) (gp : GenPath) (counter : ℕ)
    (hc : 0 < counter) (hg : gp.genId < counter) :
    (structuralMutate f gp counter).1.genId ≠ gp.genId ∧
    (structuralMutate f gp counter).1.genId ≠ 0 ∧
    (∀ k, k < counter → (structuralMutate f gp counter).1.genId ≠ k) ∧
    (structuralMutate f gp counter).1.genId < (structuralMutate f gp counter).2 ∧
    counter < (structuralMutate f gp counter).2 ∧
    (∀ ft, (gp.setFillType ft).genId = gp.genId) ∧
    (∀ b, (gp.setIsVolatile b).genId = gp.genId) := by
  refine ⟨?_, ?_, ?_, ?_, ?_, fun ft => rfl, fun b => rfl⟩
  · show counter ≠ gp.genId
    omega
  · show counter ≠ 0
    omega
  · intro k hk
    show counter ≠ k
    omega
  · show counter < counter + 1
    omega
  · show counter < counter + 1
    omega

/-- Witness for claim C7: the counter at 5, a path carrying id 3, mutated by
a line_to; the fresh id is 5, distinct from 3, from 0, and from the
previously issued id 4, and fill-type/volatility writes keep id 3. -/
theorem claim_C7_witness :
    (structuralMutate (fun p => p.line_to ⟨1, 1⟩) ⟨SkPath.empty, 3⟩ 5).1.genId ≠ 3 ∧
    (structuralMutate (fun p => p.line_to ⟨1, 1⟩) ⟨SkPath.empty, 3⟩ 5).1.genId ≠ 0 ∧
    (structuralMutate (fun p => p.line_to ⟨1, 1⟩) ⟨SkPath.empty, 3⟩ 5).1.genId ≠ 4 ∧
    (structuralMutate (fun p => p.line_to ⟨1, 1⟩) ⟨SkPath.empty, 3⟩ 5).1.genId <
      (structuralMutate (fun p => p.line_to ⟨1, 1⟩) ⟨SkPath.empty, 3⟩ 5).2 ∧
    ((⟨SkPath.empty, 3⟩ : GenPath).setFillType SkPathFillType.evenOdd).genId = 3 ∧
    ((⟨SkPath.empty, 3⟩ : GenPath).setIsVolatile true).genId = 3 :=
  ⟨(claim_C7 (fun p => p.line_to ⟨1, 1⟩) ⟨SkPath.empty, 3⟩ 5 (by decide) (by decide)).1,
   (claim_C7 (fun p => p.line_to ⟨1, 1⟩) ⟨SkPath.empty, 3⟩ 5 (by decide) (by decide)).2.1,
   (claim_C7 (fun p => p.line_to ⟨1, 1⟩) ⟨SkPath.empty, 3⟩ 5 (by decide) (by decide)).2.2.1 4
     (by decide),
   (claim_C7 (fun p => p.line_to ⟨1, 1⟩) ⟨SkPath.empty, 3⟩ 5 (by decide) (by decide)).2.2.2.1,
   (claim_C7 (fun p => p.line_to ⟨1, 1⟩) ⟨SkPath.empty, 3⟩ 5 (by decide) (by decide)).2.2.2.2.2.1
     SkPathFillType.evenOdd,
   (claim_C7 (fun p => p.line_to ⟨1, 1⟩) ⟨SkPath.empty, 3⟩ 5 (by decide)
     (by decide)).2.2.2.2.2.2 true⟩

/-- Forced-close iteration of a polyline contour equals the raw iteration
followed by the synthetic close pair; the remaining state is generalized for
the induction. -/
lemma iterGo_lines_forced (qs : List SkPoint) (cs last : SkPoint) (ws : List SkScalar) :
    iterGo true (List.replicate qs.length SkVerb.line) qs ws cs last true =
      iterGo false (List.replicate qs.length SkVerb.line) qs ws cs last true ++
        closePair (qs.getLastD last) cs := by
  induction qs generalizing last with
  | nil => simp [iterGo]
  | cons q qr ih =>
    simp [List.replicate_succ, iterGo, ih q]
    rw [← List.getLastD_eq_getLast?, ← List.getLastD_eq_getLast?, List.getLastD_cons]

/-- Claim C8: forced-close iteration over the stored open contour
[Move(0,0), Line(5,5)] yields exactly Move, Line, a synthetic Line back to
the contour start (0,0) flagged as a close-line, and a synthetic Close; and
in general a single open polyline contour receives exactly the trailing
synthetic (Line to contour start, Close) pair on top of the raw iteration. -/
theorem claim_C8 :
    (SkPath.empty.line_to ⟨5, 5⟩).iterItems true =
      [⟨SkVerb.move, [⟨0, 0⟩], false, none, false⟩,
       ⟨SkVerb.line, [⟨0, 0⟩, ⟨5, 5⟩], false, none, false⟩,
       ⟨SkVerb.line, [⟨5, 5⟩, ⟨0, 0⟩], true, none, true⟩,
       ⟨SkVerb.close, [], false, none, true⟩] ∧
    (∀ (p0 : SkPoint) (qs : List SkPoint),
      SkPath.iterItems
          ⟨SkPathFillType.winding, SkVerb.move :: qs.map (fun _ => SkVerb.line),
            p0 :: qs, [], false⟩ true =
        SkPath.iterItems
            ⟨SkPathFillType.winding, SkVerb.move :: qs.map (fun _ => SkVerb.line),
              p0 :: qs, [], false⟩ false ++
          closePair (qs.getLastD p0) p0) := by
  refine ⟨by decide, ?_⟩
  intro p0 qs
  show iterGo true (SkVerb.move :: qs.map fun _ => SkVerb.line) (p0 :: qs) [] ⟨0, 0⟩ ⟨0, 0⟩ false =
    iterGo false (SkVerb.move :: qs.map fun _ => SkVerb.line) (p0 :: qs) [] ⟨0, 0⟩ ⟨0, 0⟩ false ++
      closePair (qs.getLastD p0) p0
  simp [iterGo, iterGo_lines_forced]

end RustSkia
